import Mathlib

/-!
Shallow embedding of the real-time quote aggregation core of the
trades-analyzer repository (the monitor scripts), for checking the
natural-language specification against the code.

Conventions used throughout:
* Prices, timestamps and latencies are modelled as `ℚ`.  An instant is its
  POSIX epoch value in seconds (Python `datetime` values are compared and
  subtracted; `datetime.fromtimestamp q` is represented by `q` itself and
  `(t1 - t2).total_seconds()` by `t1 - t2`).
* Python dictionaries keyed by symbol are association lists with
  overwrite-on-insert semantics.
* The Python truthiness test `data.get('bids')` succeeds exactly when the
  key is present with a non-empty list; an absent or empty list is modelled
  as `[]`.
* A symbol that could not be resolved from the subscription table is the
  placeholder string "UNKNOWN" in the code; the spec calls this a blank
  symbol.
-/

namespace TradesAnalyzer

/-- A raw timestamp value of unknown runtime type, as found in a payload
field: a Python `int`/`float` (`num`), a `str` (`str`), or any other
shape (`other`). -/
inductive RawTs where
  | num (q : ℚ)
  | str (s : String)
  | other
deriving DecidableEq

/-- One order-book level `{price, volume}` (src: payload entries
`data['bids'][0]` / `data['asks'][0]`). -/
structure BookLevel where
  price : ℚ
  volume : ℚ
deriving DecidableEq

/-- The `data` part of an order-book update payload: best-first bid and ask
lists and the optional `ms_timestamp` field read by
`UltimateRealTimeMonitor.calculate_latency`. -/
structure OrderBookData where
  bids : List BookLevel
  asks : List BookLevel
  ms_timestamp : Option RawTs
deriving DecidableEq

/-- An update event as seen by the handler after the symbol has been
resolved from `response['guid']` via the subscription table; an
unresolvable guid leaves the placeholder symbol "UNKNOWN". -/
structure UpdateEvent where
  symbol : String
  data : OrderBookData
deriving DecidableEq

/-- Per-symbol record stored in `self.instruments_data[symbol]` by the
effective `UltimateRealTimeMonitor.on_orderbook_update`
(src/ultimate_realtime_monitor.py, second definition, lines 371-397). -/
structure InstrumentState where
  bid : ℚ
  ask : ℚ
  spread : ℚ
  prev_bid : Option ℚ
  prev_ask : Option ℚ
  last_update : ℚ
  exchange_time : Option ℚ
  latency_ms : Option ℚ
  update_count : ℕ
deriving DecidableEq

/-- Monitor state: the fields of `UltimateRealTimeMonitor` that the
order-book handler reads or writes.  `display_calls` counts the
invocations of `self.display_table()` made by the handler. -/
structure MonitorState where
  instruments_data : List (String × InstrumentState)
  update_count : ℕ
  latency_measurements : List ℚ
  running : Bool
  display_calls : ℕ
deriving DecidableEq

/-- Dictionary lookup (`d.get(k)`): first binding of the key, if any. -/
def alistLookup {β : Type} (l : List (String × β)) (k : String) : Option β :=
  match l with
  | [] => none
  | (k2, v) :: t => if k2 = k then some v else alistLookup t k

/-- Dictionary write (`d[k] = v`): overwrite the first binding of the key,
or append a new binding. -/
def alistInsert {β : Type} (l : List (String × β)) (k : String) (v : β) :
    List (String × β) :=
  match l with
  | [] => [(k, v)]
  | (k2, v2) :: t =>
    if k2 = k then (k, v) :: t else (k2, v2) :: alistInsert t k v

/-- `UltimateRealTimeMonitor.calculate_latency` (src lines 79-90): reads
`data['ms_timestamp']`; when it is numeric and greater than 1e12 it is
epoch milliseconds, the exchange instant is `ms/1000` and the latency is
`(computer_time - exchange_time) * 1000`; every other case yields
`(None, None)`. -/
def calculate_latency (computer_time : ℚ) (data : OrderBookData) :
    Option ℚ × Option ℚ :=
  match data.ms_timestamp with
  | some (RawTs.num q) =>
    if q > 10 ^ 12 then
      let exchange_time := q / 1000
      (some ((computer_time - exchange_time) * 1000), some exchange_time)
    else (none, none)
  | _ => (none, none)

/-- Latency-sample push of the first (shadowed) definition of
`on_orderbook_update` (src/ultimate_realtime_monitor.py lines 116-121):
append, then pop the oldest element once the length exceeds the capacity
(50 in the code; the capacity is a parameter here, matching the spec's
configurable `latencyWindowSize`). -/
def push_latency (cap : ℕ) (measurements : List ℚ) (l : ℚ) : List ℚ :=
  let m := measurements ++ [l]
  if m.length > cap then m.tail else m

/-- Latency-sample push of the effective second definition of
`on_orderbook_update` (src lines 380-381): if a latency value is present
and lies strictly between 0 and 2000 ms it is appended; no element is
ever evicted. -/
def push_latency_effective (measurements : List ℚ) (latency_ms : Option ℚ) :
    List ℚ :=
  match latency_ms with
  | some l => if 0 < l ∧ l < 2000 then measurements ++ [l] else measurements
  | none => measurements

/-- The effective `UltimateRealTimeMonitor.on_orderbook_update`
(src/ultimate_realtime_monitor.py lines 371-403, the second definition of
the method, which in Python shadows the first).  Returns early when the
monitor is not running; accepts the event only when the bid list and the
ask list are both non-empty and the symbol is not the "UNKNOWN"
placeholder; otherwise leaves the state untouched.  On acceptance it
computes bid/ask/spread, the latency pair, pushes the filtered latency
sample, overwrites the symbol's record (previous bid/ask taken from the
record being replaced; `exchange_time` and `latency_ms` always set to the
freshly computed values, `None` included), increments the global update
count, and calls `display_table` when that count is a multiple of 5. -/
def on_orderbook_update (st : MonitorState) (computer_time : ℚ)
    (ev : UpdateEvent) : MonitorState :=
  if st.running then
    match ev.data.bids, ev.data.asks with
    | b :: _, a :: _ =>
      if ev.symbol ≠ "UNKNOWN" then
        let bid := b.price
        let ask := a.price
        let spread := ask - bid
        let lat := calculate_latency computer_time ev.data
        let latency_ms := lat.1
        let exchange_time := lat.2
        let measurements := push_latency_effective st.latency_measurements latency_ms
        let prev_data := alistLookup st.instruments_data ev.symbol
        let new_record : InstrumentState :=
          { bid := bid
            ask := ask
            spread := spread
            prev_bid := prev_data.map InstrumentState.bid
            prev_ask := prev_data.map InstrumentState.ask
            last_update := computer_time
            exchange_time := exchange_time
            latency_ms := latency_ms
            update_count := (prev_data.map InstrumentState.update_count).getD 0 + 1 }
        let uc := st.update_count + 1
        { instruments_data := alistInsert st.instruments_data ev.symbol new_record
          update_count := uc
          latency_measurements := measurements
          running := st.running
          display_calls :=
            if uc % 5 = 0 then st.display_calls + 1 else st.display_calls }
      else st
    | _, _ => st
  else st

/-- The monitor state right after `start_monitoring` has set
`self.running = True`: empty instrument table, zero counters. -/
def initialState : MonitorState :=
  { instruments_data := []
    update_count := 0
    latency_measurements := []
    running := true
    display_calls := 0 }

/-- Sequential processing of a stream of (receive instant, event) pairs by
the handler, one at a time, as the transport delivers them. -/
def runEvents (st : MonitorState) (evs : List (ℚ × UpdateEvent)) :
    MonitorState :=
  evs.foldl (fun s p => on_orderbook_update s p.1 p.2) st

/-- Result of EventIngest validation. -/
inductive IngestResult where
  | accepted
  | dropped (reason : String)
deriving DecidableEq

/-- Classification of the handler's single acceptance test
`data.get('bids') and data.get('asks') and symbol != 'UNKNOWN'` into the
spec's drop taxonomy: a missing or empty book side is "no-book-data", a
blank (placeholder) symbol is "empty-symbol", anything else is accepted.
The code performs the same test as one combined condition and attaches no
reason strings; the reason names and their order follow the spec. -/
def onEventResult (ev : UpdateEvent) : IngestResult :=
  match ev.data.bids, ev.data.asks with
  | _ :: _, _ :: _ =>
    if ev.symbol = "UNKNOWN" then IngestResult.dropped "empty-symbol"
    else IngestResult.accepted
  | _, _ => IngestResult.dropped "no-book-data"

/-- The handler's acceptance test as a Boolean. -/
def event_accepted (ev : UpdateEvent) : Bool :=
  !ev.data.bids.isEmpty && !ev.data.asks.isEmpty && ev.symbol != "UNKNOWN"

/-- The `update_count` stored for a symbol, 0 when the symbol has never
been accepted (`prev_data.get('update_count', 0)` semantics). -/
def symbolUpdateCount (st : MonitorState) (sym : String) : ℕ :=
  ((alistLookup st.instruments_data sym).map InstrumentState.update_count).getD 0

/-- `FinalRealTimeMonitor.format_change_indicator`
(src/final_realtime_monitor.py lines 66-76; identical in
ultimate_realtime_monitor.py): blank when either value is `None`, an up
arrow on strict increase, a down arrow on strict decrease, an equals sign
on exact equality.  The four returned strings realize the spec's
`FirstObservation` (" "), `Up`, `Down`, `Unchanged` classifications. -/
def format_change_indicator (current previous : Option ℚ) : String :=
  match current, previous with
  | some c, some p =>
    if c > p then "↑"
    else if c < p then "↓"
    else "="
  | _, _ => " "

/-- Digit-string to natural number (model of Python `int` parsing inside
`datetime.fromisoformat`). -/
def parseNatDigits (s : String) : Option ℕ :=
  if s.length > 0 && s.toList.all Char.isDigit then
    some (s.toList.foldl (fun n c => n * 10 + (c.toNat - 48)) 0)
  else none

/-- Seconds field of an ISO time, "SS" or "SS.ffffff", as a rational. -/
def parseSecondsField (s : String) : Option ℚ :=
  match s.splitOn "." with
  | [whole] => (parseNatDigits whole).map (fun n => (n : ℚ))
  | [whole, frac] =>
    match parseNatDigits whole, parseNatDigits frac with
    | some w, some f => some ((w : ℚ) + (f : ℚ) / ((10 : ℚ) ^ frac.length))
    | _, _ => none
  | _ => none

/-- Days from 1970-01-01 of the civil date y-m-d (proleptic Gregorian),
the standard era/year-of-era computation. -/
def daysFromCivil (y m d : ℕ) : ℤ :=
  let y2 := if m ≤ 2 then y - 1 else y
  let era := y2 / 400
  let yoe := y2 % 400
  let mp := if 2 < m then m - 3 else m + 9
  let doy := (153 * mp + 2) / 5 + d - 1
  let doe := yoe * 365 + yoe / 4 - yoe / 100 + doy
  (era * 146097 + doe : ℤ) - 719468

/-- Modelled from the spec: the spec says a string value is parsed as
ISO-8601 (with an explicit UTC offset or none, zone-naive); the repository
delegates this to the Python standard library `datetime.fromisoformat`
(after replacing a trailing 'Z' by '+00:00') and then discards the zone
offset (`dt.replace(tzinfo=None)`), and that library routine is not part
of the repository.  This model accepts the zone-naive form
"YYYY-MM-DDTHH:MM:SS[.ffffff]" with an optional ignored offset suffix and
returns the epoch value of the parsed civil time. -/
def isoParse (s : String) : Option ℚ :=
  match s.splitOn "T" with
  | [datePart, rawTime] =>
    let t1 := (rawTime.splitOn "Z").headD rawTime
    let t2 := (t1.splitOn "+").headD t1
    let timePart := (t2.splitOn "-").headD t2
    match datePart.splitOn "-", timePart.splitOn ":" with
    | [ys, mos, ds], [hs, mins, secs] =>
      match parseNatDigits ys, parseNatDigits mos, parseNatDigits ds,
            parseNatDigits hs, parseNatDigits mins, parseSecondsField secs with
      | some y, some mo, some d, some h, some mi, some sec =>
        if 1 ≤ mo ∧ mo ≤ 12 ∧ 1 ≤ d ∧ d ≤ 31 ∧ h < 24 ∧ mi < 60 ∧ sec < 60 then
          some (((daysFromCivil y mo d) * 86400 + (h * 3600 + mi * 60 : ℕ) : ℤ) + sec)
        else none
      | _, _, _, _, _, _ => none
    | _, _ => none
  | _ => none

/-- The repository's timestamp-normalization heuristic in its fullest
form, `SiU5LatencyTest.on_orderbook_change`
(src/siu5_latency_test.py lines 74-91): a numeric value greater than 1e12
is epoch milliseconds (instant `q / 1000`), a numeric value greater than
1e9 is epoch seconds (instant `q`), a string containing 'T' is parsed as
ISO-8601, and every other shape (including a numeric value not above 1e9)
is not normalized. -/
def normalize_timestamp (raw : RawTs) : Option ℚ :=
  match raw with
  | RawTs.num q =>
    if q > 10 ^ 12 then some (q / 1000)
    else if q > 10 ^ 9 then some q
    else none
  | RawTs.str s => if s.toList.contains 'T' then isoParse s else none
  | RawTs.other => none

/-- `UltimateRealTimeMonitor.get_avg_latency` (src lines 148-152): mean of
the recorded latency samples, 0 when none have been recorded (the
division is guarded by the emptiness test). -/
def get_avg_latency (latency_measurements : List ℚ) : ℚ :=
  if !latency_measurements.isEmpty then
    latency_measurements.sum / latency_measurements.length
  else 0

/-- `LatencyMeasurer.show_latency_stats` (src/measure_latency.py lines
93-102): returns immediately (display skipped, modelled as `none`) when
no measurements exist; otherwise computes mean, min and max over the last
20 measurements. -/
def show_latency_stats (measurements : List ℚ) : Option (ℚ × ℚ × ℚ) :=
  if measurements.isEmpty then none
  else
    match measurements.drop (measurements.length - 20) with
    | [] => none
    | x :: t =>
      some (((x :: t).sum : ℚ) / ((x :: t).length : ℚ),
            t.foldl min x, t.foldl max x)


section Lemmas

variable {β : Type}

theorem alistLookup_insert_self (l : List (String × β)) (k : String) (v : β) :
    alistLookup (alistInsert l k v) k = some v := by
  induction l with
  | nil => simp [alistInsert, alistLookup]
  | cons p t ih =>
    obtain ⟨k2, v2⟩ := p
    by_cases h : k2 = k
    · simp [alistInsert, alistLookup, h]
    · simp [alistInsert, alistLookup, h, ih]

theorem alistLookup_insert_ne (l : List (String × β)) (k k2 : String) (v : β)
    (h : k2 ≠ k) : alistLookup (alistInsert l k v) k2 = alistLookup l k2 := by
  induction l with
  | nil => simp [alistInsert, alistLookup, Ne.symm h]
  | cons p t ih =>
    obtain ⟨k3, v3⟩ := p
    by_cases h3 : k3 = k
    · subst h3
      simp [alistInsert, alistLookup, Ne.symm h]
    · simp [alistInsert, alistLookup, h3, ih]

theorem countP_not_add {α : Type} (l : List α) (p : α → Bool) :
    l.countP p + l.countP (fun a => !p a) = l.length := by
  induction l with
  | nil => simp
  | cons a t ih =>
    cases hp : p a <;> simp [List.countP_cons, hp] <;> omega

theorem event_accepted_iff (ev : UpdateEvent) :
    event_accepted ev = true ↔
      (∃ b bt, ev.data.bids = b :: bt) ∧ (∃ a at2, ev.data.asks = a :: at2) ∧
        ev.symbol ≠ "UNKNOWN" := by
  unfold event_accepted
  cases hb : ev.data.bids <;> cases ha : ev.data.asks <;> simp [hb, ha]

theorem on_orderbook_update_drop (st : MonitorState) (t : ℚ) (ev : UpdateEvent)
    (h : event_accepted ev = false) : on_orderbook_update st t ev = st := by
  unfold on_orderbook_update
  split
  · split
    next b bt a at2 hb ha =>
      have : ev.symbol = "UNKNOWN" := by
        simpa [event_accepted, hb, ha] using h
      simp [this]
    next => rfl
  · rfl

theorem on_orderbook_update_accepted (st : MonitorState) (t : ℚ)
    (ev : UpdateEvent) (b a : BookLevel) (bt at2 : List BookLevel)
    (hrun : st.running = true) (hb : ev.data.bids = b :: bt)
    (ha : ev.data.asks = a :: at2) (hs : ev.symbol ≠ "UNKNOWN") :
    on_orderbook_update st t ev =
      { instruments_data := alistInsert st.instruments_data ev.symbol
          { bid := b.price
            ask := a.price
            spread := a.price - b.price
            prev_bid := (alistLookup st.instruments_data ev.symbol).map InstrumentState.bid
            prev_ask := (alistLookup st.instruments_data ev.symbol).map InstrumentState.ask
            last_update := t
            exchange_time := (calculate_latency t ev.data).2
            latency_ms := (calculate_latency t ev.data).1
            update_count :=
              ((alistLookup st.instruments_data ev.symbol).map
                InstrumentState.update_count).getD 0 + 1 }
        update_count := st.update_count + 1
        latency_measurements :=
          push_latency_effective st.latency_measurements (calculate_latency t ev.data).1
        running := true
        display_calls :=
          if (st.update_count + 1) % 5 = 0 then st.display_calls + 1
          else st.display_calls } := by
  simp only [on_orderbook_update, hrun, hb, ha, if_true]
  rw [if_pos hs]

theorem on_orderbook_update_running (st : MonitorState) (t : ℚ)
    (ev : UpdateEvent) : (on_orderbook_update st t ev).running = st.running := by
  unfold on_orderbook_update
  split
  next hrun =>
    split
    · split <;> simp [hrun]
    · rfl
  next => rfl

theorem event_accepted_decomp (ev : UpdateEvent)
    (hacc : event_accepted ev = true) :
    ∃ b bt a at2, ev.data.bids = b :: bt ∧ ev.data.asks = a :: at2 ∧
      ev.symbol ≠ "UNKNOWN" := by
  obtain ⟨⟨b, bt, hb⟩, ⟨a, at2, ha⟩, hs⟩ := (event_accepted_iff ev).mp hacc
  exact ⟨b, bt, a, at2, hb, ha, hs⟩

theorem symbolUpdateCount_step (st : MonitorState) (t : ℚ) (ev : UpdateEvent)
    (s : String) (hrun : st.running = true) :
    symbolUpdateCount (on_orderbook_update st t ev) s =
      symbolUpdateCount st s +
        (if event_accepted ev && ev.symbol == s then 1 else 0) := by
  cases hacc : event_accepted ev with
  | false => rw [on_orderbook_update_drop st t ev hacc]; simp
  | true =>
    obtain ⟨b, bt, a, at2, hb, ha, hs⟩ := event_accepted_decomp ev hacc
    rw [on_orderbook_update_accepted st t ev b a bt at2 hrun hb ha hs]
    unfold symbolUpdateCount
    by_cases hsym : ev.symbol = s
    · subst hsym
      simp [alistLookup_insert_self]
    · rw [alistLookup_insert_ne _ _ _ _ (Ne.symm hsym)]
      simp [hsym]

theorem runEvents_symbolUpdateCount (evs : List (ℚ × UpdateEvent))
    (st : MonitorState) (s : String) (hrun : st.running = true) :
    symbolUpdateCount (runEvents st evs) s =
      symbolUpdateCount st s +
        evs.countP (fun p => event_accepted p.2 && p.2.symbol == s) := by
  induction evs generalizing st with
  | nil => simp [runEvents]
  | cons p rest ih =>
    obtain ⟨t, ev⟩ := p
    have hrun2 : (on_orderbook_update st t ev).running = true := by
      rw [on_orderbook_update_running, hrun]
    have hstep := symbolUpdateCount_step st t ev s hrun
    simp only [runEvents, List.foldl_cons] at ih ⊢
    rw [ih (on_orderbook_update st t ev) hrun2, hstep, List.countP_cons]
    have hpair : (event_accepted (t, ev).2 && (t, ev).2.symbol == s) =
        (event_accepted ev && ev.symbol == s) := rfl
    rw [hpair]
    omega

theorem on_orderbook_update_counters (st : MonitorState) (t : ℚ)
    (ev : UpdateEvent) (hrun : st.running = true)
    (hacc : event_accepted ev = true) :
    (on_orderbook_update st t ev).update_count = st.update_count + 1 ∧
    (on_orderbook_update st t ev).display_calls =
      (if (st.update_count + 1) % 5 = 0 then st.display_calls + 1
       else st.display_calls) := by
  obtain ⟨b, bt, a, at2, hb, ha, hs⟩ := event_accepted_decomp ev hacc
  rw [on_orderbook_update_accepted st t ev b a bt at2 hrun hb ha hs]
  exact ⟨rfl, rfl⟩

theorem runEvents_counters (evs : List (ℚ × UpdateEvent)) (st : MonitorState)
    (hrun : st.running = true) :
    (runEvents st evs).update_count =
      st.update_count + evs.countP (fun p => event_accepted p.2) ∧
    (runEvents st evs).display_calls + st.update_count / 5 =
      st.display_calls +
        (st.update_count + evs.countP (fun p => event_accepted p.2)) / 5 := by
  induction evs generalizing st with
  | nil => simp [runEvents]
  | cons p rest ih =>
    obtain ⟨t, ev⟩ := p
    have hrun2 : (on_orderbook_update st t ev).running = true := by
      rw [on_orderbook_update_running, hrun]
    simp only [runEvents, List.foldl_cons] at ih ⊢
    rw [List.countP_cons]
    cases hacc : event_accepted ev with
    | false =>
      rw [on_orderbook_update_drop st t ev hacc]
      obtain ⟨ihc, ihd⟩ := ih st hrun
      simp
      exact ⟨by omega, by omega⟩
    | true =>
      obtain ⟨huc, hdc⟩ := on_orderbook_update_counters st t ev hrun hacc
      obtain ⟨ihc, ihd⟩ := ih (on_orderbook_update st t ev) hrun2
      rw [huc] at ihc
      rw [huc, hdc] at ihd
      have hsucc := Nat.succ_div st.update_count 5
      have hmod : (st.update_count + 1) % 5 = 0 ↔ 5 ∣ st.update_count + 1 := by
        omega
      simp only [eq_self_iff_true, if_true]
      by_cases hdvd : 5 ∣ st.update_count + 1
      · rw [if_pos (hmod.mpr hdvd)] at ihd
        rw [if_pos hdvd] at hsucc
        exact ⟨by omega, by omega⟩
      · rw [if_neg (fun hh => hdvd (hmod.mp hh))] at ihd
        rw [if_neg hdvd] at hsucc
        exact ⟨by omega, by omega⟩

theorem countP_eq_of_forall {α : Type} (l : List α) (p q : α → Bool)
    (h : ∀ a ∈ l, p a = q a) : l.countP p = l.countP q := by
  induction l with
  | nil => simp
  | cons a t ih =>
    rw [List.countP_cons, List.countP_cons, h a (by simp),
      ih (fun x hx => h x (by simp [hx]))]

theorem onEventResult_accepted_iff (ev : UpdateEvent) :
    onEventResult ev = IngestResult.accepted ↔ event_accepted ev = true := by
  unfold onEventResult event_accepted
  cases hb : ev.data.bids <;> cases ha : ev.data.asks <;>
    by_cases hs : ev.symbol = "UNKNOWN" <;> simp [hb, ha, hs]

end Lemmas

section Claims

/-- Claim C1, amended: `onEvent` drops an event with reason "no-book-data"
exactly when at least one of the bid side and the ask side is absent or
empty; an event carrying both sides and a non-blank symbol is accepted and
applied to state; an event with both sides but a blank symbol is dropped
with reason "empty-symbol"; and a dropped event leaves every piece of
state (instrument records and counters) completely untouched. -/
theorem c1_ingest_validation (ev : UpdateEvent) (st : MonitorState) (t : ℚ) :
    (onEventResult ev = IngestResult.dropped "no-book-data" ↔
      ev.data.bids = [] ∨ ev.data.asks = []) ∧
    (onEventResult ev = IngestResult.dropped "empty-symbol" ↔
      ev.data.bids ≠ [] ∧ ev.data.asks ≠ [] ∧ ev.symbol = "UNKNOWN") ∧
    (onEventResult ev = IngestResult.accepted ↔
      ev.data.bids ≠ [] ∧ ev.data.asks ≠ [] ∧ ev.symbol ≠ "UNKNOWN") ∧
    (onEventResult ev ≠ IngestResult.accepted → on_orderbook_update st t ev = st) ∧
    (st.running = true → onEventResult ev = IngestResult.accepted →
      (on_orderbook_update st t ev).update_count = st.update_count + 1 ∧
      symbolUpdateCount (on_orderbook_update st t ev) ev.symbol =
        symbolUpdateCount st ev.symbol + 1) := by
  refine ⟨?_, ?_, ?_, ?_, ?_⟩
  · unfold onEventResult
    cases hb : ev.data.bids <;> cases ha : ev.data.asks <;>
      by_cases hs : ev.symbol = "UNKNOWN" <;> simp [hb, ha, hs]
  · unfold onEventResult
    cases hb : ev.data.bids <;> cases ha : ev.data.asks <;>
      by_cases hs : ev.symbol = "UNKNOWN" <;> simp [hb, ha, hs]
  · unfold onEventResult
    cases hb : ev.data.bids <;> cases ha : ev.data.asks <;>
      by_cases hs : ev.symbol = "UNKNOWN" <;> simp [hb, ha, hs]
  · intro h
    cases hacc : event_accepted ev with
    | true => exact absurd ((onEventResult_accepted_iff ev).mpr hacc) h
    | false => exact on_orderbook_update_drop st t ev hacc
  · intro hrun hres
    have hacc := (onEventResult_accepted_iff ev).mp hres
    refine ⟨(on_orderbook_update_counters st t ev hrun hacc).1, ?_⟩
    have hstep := symbolUpdateCount_step st t ev ev.symbol hrun
    simpa [hacc] using hstep

/-- Claim C1, counterexample: an event that carries a bid side and the
non-blank symbol "SIU5" but no ask side is asserted by the claim to be
accepted and applied; the code drops it (missing-book-data branch) and
leaves the state untouched. -/
theorem c1_counterexample :
    onEventResult ⟨"SIU5", ⟨[⟨101, 1⟩], [], none⟩⟩ =
      IngestResult.dropped "no-book-data" ∧
    on_orderbook_update initialState 0 ⟨"SIU5", ⟨[⟨101, 1⟩], [], none⟩⟩ =
      initialState := by
  exact ⟨rfl, rfl⟩

/-- Claim C1, witness: the amended theorem applied at a concrete accepted
event. -/
theorem c1_witness :
    (on_orderbook_update initialState 0
      ⟨"SIU5", ⟨[⟨101, 1⟩], [⟨103, 1⟩], none⟩⟩).update_count =
      initialState.update_count + 1 := by
  exact ((c1_ingest_validation ⟨"SIU5", ⟨[⟨101, 1⟩], [⟨103, 1⟩], none⟩⟩
    initialState 0).2.2.2.2 rfl (by decide)).1

/-- Claim C2, amended: for every accepted event whose raw timestamp fails
normalization (the latency computation yields the pair (None, None)), the
event's price fields (bid, ask, spread) are still applied to the symbol's
state, while `exchange_time` and `latency_ms` are cleared to absent (the
freshly computed None values overwrite whatever was stored before), and no
latency sample is recorded for that event. -/
theorem c2_invalid_timestamp (st : MonitorState) (t : ℚ) (ev : UpdateEvent)
    (b a : BookLevel) (bt at2 : List BookLevel) (hrun : st.running = true)
    (hb : ev.data.bids = b :: bt) (ha : ev.data.asks = a :: at2)
    (hs : ev.symbol ≠ "UNKNOWN")
    (hts : calculate_latency t ev.data = (none, none)) :
    ((alistLookup (on_orderbook_update st t ev).instruments_data
        ev.symbol).map
      (fun r => (r.bid, r.ask, r.spread, r.exchange_time, r.latency_ms))) =
      some (b.price, a.price, a.price - b.price, none, none) ∧
    (on_orderbook_update st t ev).latency_measurements =
      st.latency_measurements := by
  rw [on_orderbook_update_accepted st t ev b a bt at2 hrun hb ha hs]
  constructor
  · simp [alistLookup_insert_self, hts]
  · show push_latency_effective st.latency_measurements
      (calculate_latency t ev.data).1 = st.latency_measurements
    rw [hts]
    rfl

/-- Claim C2, counterexample: after a first event with a valid millisecond
timestamp the symbol's record holds latency 1000 ms and exchange instant
1690000000; the claim asserts that a following event with an invalid
timestamp leaves those two fields at exactly those previous values, but
the code overwrites both with None. -/
theorem c2_counterexample :
    ((alistLookup (on_orderbook_update initialState 1690000001
        ⟨"SIU5", ⟨[⟨101, 1⟩], [⟨103, 1⟩], some (RawTs.num 1690000000000)⟩⟩).instruments_data
        "SIU5").map (fun r => (r.latency_ms, r.exchange_time))) =
      some (some 1000, some 1690000000) ∧
    ((alistLookup (on_orderbook_update
        (on_orderbook_update initialState 1690000001
          ⟨"SIU5", ⟨[⟨101, 1⟩], [⟨103, 1⟩], some (RawTs.num 1690000000000)⟩⟩)
        1690000002
        ⟨"SIU5", ⟨[⟨102, 1⟩], [⟨103, 1⟩], none⟩⟩).instruments_data
        "SIU5").map (fun r => (r.latency_ms, r.exchange_time))) =
      some (none, none) := by
  exact ⟨by norm_num [on_orderbook_update, calculate_latency,
      push_latency_effective, alistInsert, alistLookup, initialState],
    by norm_num [on_orderbook_update, calculate_latency,
      push_latency_effective, alistInsert, alistLookup, initialState]⟩

/-- Claim C2, witness: the amended theorem applied at a concrete event
whose `ms_timestamp` is absent. -/
theorem c2_witness :
    ((alistLookup (on_orderbook_update initialState 0
        ⟨"SIU5", ⟨[⟨101, 1⟩], [⟨103, 1⟩], none⟩⟩).instruments_data
        "SIU5").map
      (fun r => (r.bid, r.ask, r.spread, r.exchange_time, r.latency_ms))) =
      some (101, 103, 103 - 101, none, none) ∧
    (on_orderbook_update initialState 0
      ⟨"SIU5", ⟨[⟨101, 1⟩], [⟨103, 1⟩], none⟩⟩).latency_measurements =
      initialState.latency_measurements := by
  exact c2_invalid_timestamp initialState 0
    ⟨"SIU5", ⟨[⟨101, 1⟩], [⟨103, 1⟩], none⟩⟩ ⟨101, 1⟩ ⟨103, 1⟩ [] []
    rfl rfl rfl (by decide) rfl

/-- Claim C3: the normalization heuristic of the repository's timestamp
handling (src/siu5_latency_test.py): a numeric value greater than 1e12 is
treated as epoch milliseconds, a numeric value greater than 1e9 but not
exceeding 1e12 as epoch seconds, a string containing the ISO-8601
date/time separator is parsed as ISO-8601, and any other shape (a numeric
value not exceeding 1e9 or a non-numeric non-string payload) is not
normalized. -/
theorem c3_timestamp_heuristic (q : ℚ) (s : String) :
    (q > 10 ^ 12 → normalize_timestamp (RawTs.num q) = some (q / 1000)) ∧
    (q > 10 ^ 9 → q ≤ 10 ^ 12 → normalize_timestamp (RawTs.num q) = some q) ∧
    (q ≤ 10 ^ 9 → normalize_timestamp (RawTs.num q) = none) ∧
    (s.toList.contains 'T' = true → normalize_timestamp (RawTs.str s) = isoParse s) ∧
    normalize_timestamp RawTs.other = none := by
  refine ⟨?_, ?_, ?_, ?_, rfl⟩
  · intro h
    simp [normalize_timestamp, h]
  · intro h1 h2
    have hn : ¬ q > 10 ^ 12 := by
      intro hq
      have h10 : (10 : ℚ) ^ 12 ≤ 10 ^ 12 := le_refl _
      linarith
    simp [normalize_timestamp, hn, h1]
  · intro h
    have h12 : (10 : ℚ) ^ 9 ≤ 10 ^ 12 := by norm_num
    have hn1 : ¬ q > 10 ^ 12 := by linarith
    have hn2 : ¬ q > 10 ^ 9 := by linarith
    simp [normalize_timestamp, hn1, hn2]
  · intro h
    simp only [normalize_timestamp]
    rw [if_pos h]

/-- Claim C3, witness: the heuristic evaluated at a 13-digit number, a
10-digit number, a small number, an ISO string and a non-temporal shape. -/
theorem c3_witness :
    normalize_timestamp (RawTs.num 1690000000000) = some (1690000000000 / 1000) ∧
    normalize_timestamp (RawTs.num 1690000000) = some 1690000000 ∧
    normalize_timestamp (RawTs.num 1000000000) = none ∧
    normalize_timestamp (RawTs.str "2023-07-22T04:26:40") =
      isoParse "2023-07-22T04:26:40" ∧
    normalize_timestamp RawTs.other = none := by
  refine ⟨?_, ?_, ?_, ?_, ?_⟩
  · exact (c3_timestamp_heuristic 1690000000000 "").1 (by norm_num)
  · exact (c3_timestamp_heuristic 1690000000 "").2.1 (by norm_num) (by norm_num)
  · exact (c3_timestamp_heuristic 1000000000 "").2.2.1 (by norm_num)
  · exact (c3_timestamp_heuristic 0 "2023-07-22T04:26:40").2.2.2.1 (by decide)
  · exact (c3_timestamp_heuristic 0 "").2.2.2.2

set_option maxRecDepth 4000 in
/-- Claim C4 (code_bug record): the bounded-FIFO latency window exists only
in the first, shadowed definition of `on_orderbook_update`
(`push_latency`, eviction after exceeding capacity): with capacity 3 fed
[10, 20, 30, 40] it ends holding [20, 30, 40] with mean 30, as the claim
states.  The effective second definition (`push_latency_effective`)
appends without any eviction, so the same feed leaves [10, 20, 30, 40]
in the window and 51 in-range samples leave 51, not the most recent 50. -/
theorem c4_window_eviction_divergence :
    ((([10, 20, 30, 40] : List ℚ).foldl (push_latency 3) []) = [20, 30, 40]) ∧
    get_avg_latency [20, 30, 40] = 30 ∧
    ((([10, 20, 30, 40] : List ℚ).map some).foldl push_latency_effective [] =
      [10, 20, 30, 40]) ∧
    (((List.replicate 51 (100 : ℚ)).map some).foldl push_latency_effective
        []).length = 51 ∧
    ((List.replicate 51 (100 : ℚ)).foldl (push_latency 50) []).length = 50 := by
  refine ⟨by decide, ?_, by decide, by decide, by decide⟩
  norm_num [get_avg_latency]

/-- Claim C5: the per-symbol update counter increases by exactly one on
each accepted event, never changes on a dropped event (the whole state is
untouched), and over any sequence of N events all carrying the same symbol
of which k are dropped by validation it ends at N - k. -/
theorem c5_update_count (st : MonitorState) (t : ℚ) (ev : UpdateEvent)
    (s : String) (evs : List (ℚ × UpdateEvent)) :
    (st.running = true → event_accepted ev = true →
      symbolUpdateCount (on_orderbook_update st t ev) ev.symbol =
        symbolUpdateCount st ev.symbol + 1) ∧
    (event_accepted ev = false → on_orderbook_update st t ev = st) ∧
    ((∀ p ∈ evs, (p.2).symbol = s) →
      symbolUpdateCount (runEvents initialState evs) s =
        evs.length - evs.countP (fun p => !event_accepted p.2)) := by
  refine ⟨?_, on_orderbook_update_drop st t ev, ?_⟩
  · intro hrun hacc
    have hstep := symbolUpdateCount_step st t ev ev.symbol hrun
    simpa [hacc] using hstep
  · intro hall
    have h := runEvents_symbolUpdateCount evs initialState s rfl
    have hcong : evs.countP (fun p => event_accepted p.2 && p.2.symbol == s) =
        evs.countP (fun p => event_accepted p.2) := by
      apply countP_eq_of_forall
      intro p hp
      simp [hall p hp]
    have hsplit := countP_not_add evs (fun p => event_accepted p.2)
    have h0 : symbolUpdateCount initialState s = 0 := rfl
    rw [h, hcong, h0]
    omega

/-- Claim C5, witness: two events for "SIU5", the second lacking the ask
side; the final counter is 2 minus the one dropped event. -/
theorem c5_witness :
    symbolUpdateCount (runEvents initialState
        [(0, ⟨"SIU5", ⟨[⟨101, 1⟩], [⟨103, 1⟩], none⟩⟩),
         (1, ⟨"SIU5", ⟨[⟨102, 1⟩], [], none⟩⟩)]) "SIU5" =
      [((0 : ℚ), (⟨"SIU5", ⟨[⟨101, 1⟩], [⟨103, 1⟩], none⟩⟩ : UpdateEvent)),
       (1, ⟨"SIU5", ⟨[⟨102, 1⟩], [], none⟩⟩)].length -
      [((0 : ℚ), (⟨"SIU5", ⟨[⟨101, 1⟩], [⟨103, 1⟩], none⟩⟩ : UpdateEvent)),
       (1, ⟨"SIU5", ⟨[⟨102, 1⟩], [], none⟩⟩)].countP
        (fun p => !event_accepted p.2) := by
  exact (c5_update_count initialState 0 ⟨"SIU5", ⟨[], [], none⟩⟩ "SIU5"
    [(0, ⟨"SIU5", ⟨[⟨101, 1⟩], [⟨103, 1⟩], none⟩⟩),
     (1, ⟨"SIU5", ⟨[⟨102, 1⟩], [], none⟩⟩)]).2.2 (by decide)

/-- Claim C6: after every accepted event the stored spread equals the
event's own best ask price minus its best bid price (recomputed from the
current event, never stale); concretely, bid=101/ask=103 followed by a bid
update to 102 (ask still 103) yields spread 1 and an Up bid indicator. -/
theorem c6_spread_recompute (st : MonitorState) (t : ℚ) (ev : UpdateEvent)
    (b a : BookLevel) (bt at2 : List BookLevel) :
    (st.running = true → ev.data.bids = b :: bt → ev.data.asks = a :: at2 →
      ev.symbol ≠ "UNKNOWN" →
      (alistLookup (on_orderbook_update st t ev).instruments_data
          ev.symbol).map (fun r => (r.bid, r.ask, r.spread)) =
        some (b.price, a.price, a.price - b.price)) ∧
    ((alistLookup (on_orderbook_update
        (on_orderbook_update initialState 0
          ⟨"SIU5", ⟨[⟨101, 1⟩], [⟨103, 1⟩], none⟩⟩) 1
        ⟨"SIU5", ⟨[⟨102, 1⟩], [⟨103, 1⟩], none⟩⟩).instruments_data
        "SIU5").map
      (fun r => (r.spread, format_change_indicator (some r.bid) r.prev_bid))) =
      some (1, "↑") := by
  constructor
  · intro hrun hb ha hs
    rw [on_orderbook_update_accepted st t ev b a bt at2 hrun hb ha hs]
    simp [alistLookup_insert_self]
  · norm_num [on_orderbook_update, calculate_latency, push_latency_effective,
      alistInsert, alistLookup, initialState, format_change_indicator]

/-- Claim C6, witness: the general spread identity applied at a concrete
accepted event. -/
theorem c6_witness :
    (alistLookup (on_orderbook_update initialState 0
        ⟨"SIU5", ⟨[⟨101, 1⟩], [⟨103, 1⟩], none⟩⟩).instruments_data
        "SIU5").map (fun r => (r.bid, r.ask, r.spread)) =
      some (101, 103, 103 - 101) := by
  exact (c6_spread_recompute initialState 0
    ⟨"SIU5", ⟨[⟨101, 1⟩], [⟨103, 1⟩], none⟩⟩ ⟨101, 1⟩ ⟨103, 1⟩ [] []).1
    rfl rfl rfl (by decide)

/-- Claim C7: the change classifier returns the FirstObservation blank
when the previous (or current) value is absent, the Up arrow exactly on
strict increase, the Down arrow exactly on strict decrease and the equals
sign exactly on exact equality (no epsilon tolerance); consequently the
very first accepted event of a previously-unseen symbol classifies both
price fields as FirstObservation, never as Unchanged. -/
theorem c7_change_classifier (c p : ℚ) (t : ℚ) (ev : UpdateEvent) :
    (format_change_indicator (some c) none = " ") ∧
    (format_change_indicator none (some p) = " ") ∧
    (format_change_indicator none none = " ") ∧
    (format_change_indicator (some c) (some p) = "↑" ↔ c > p) ∧
    (format_change_indicator (some c) (some p) = "↓" ↔ c < p) ∧
    (format_change_indicator (some c) (some p) = "=" ↔ c = p) ∧
    (event_accepted ev = true →
      (alistLookup (on_orderbook_update initialState t ev).instruments_data
          ev.symbol).map
        (fun r => (r.prev_bid, r.prev_ask,
                   format_change_indicator (some r.bid) r.prev_bid,
                   format_change_indicator (some r.ask) r.prev_ask)) =
      some (none, none, " ", " ")) := by
  refine ⟨rfl, rfl, rfl, ?_, ?_, ?_, ?_⟩
  · rcases lt_trichotomy c p with h | h | h
    · simp [format_change_indicator, h, not_lt.mpr (le_of_lt h)]
    · simp [format_change_indicator, h]
    · simp [format_change_indicator, h]
  · rcases lt_trichotomy c p with h | h | h
    · simp [format_change_indicator, h, not_lt.mpr (le_of_lt h)]
    · simp [format_change_indicator, h]
    · simp [format_change_indicator, h, not_lt.mpr (le_of_lt h)]
  · rcases lt_trichotomy c p with h | h | h
    · simp [format_change_indicator, h, not_lt.mpr (le_of_lt h), ne_of_lt h]
    · simp [format_change_indicator, h]
    · simp [format_change_indicator, h, not_lt.mpr (le_of_lt h),
        (ne_of_lt h).symm]
  · intro hacc
    obtain ⟨b, bt, a, at2, hb, ha, hs⟩ := event_accepted_decomp ev hacc
    rw [on_orderbook_update_accepted initialState t ev b a bt at2 rfl hb ha hs]
    have hnone : alistLookup initialState.instruments_data ev.symbol = none := rfl
    simp [alistLookup_insert_self, hnone, format_change_indicator]

/-- Claim C7, witness: the classifier evaluated along the first accepted
event of a fresh symbol. -/
theorem c7_witness :
    format_change_indicator (some 2) none = " " ∧
    (format_change_indicator (some 2) (some 1) = "↑" ↔ (2 : ℚ) > 1) ∧
    ((alistLookup (on_orderbook_update initialState 0
        ⟨"SIU5", ⟨[⟨101, 1⟩], [⟨103, 1⟩], none⟩⟩).instruments_data
        "SIU5").map
      (fun r => (r.prev_bid, r.prev_ask,
                 format_change_indicator (some r.bid) r.prev_bid,
                 format_change_indicator (some r.ask) r.prev_ask)) =
      some (none, none, " ", " ")) := by
  have h := c7_change_classifier 2 1 0 ⟨"SIU5", ⟨[⟨101, 1⟩], [⟨103, 1⟩], none⟩⟩
  exact ⟨h.1, h.2.2.2.1, h.2.2.2.2.2.2 (by decide)⟩

/-- Claim C8, amended: in the event-driven monitor the only render
trigger is the burst counter: a render (a `display_table` call) occurs
exactly when an accepted event brings the global accepted-update count to
a multiple of the burst threshold 5, so a run over any event sequence
performs floor(acceptedCount / 5) renders — five accepted events produce
exactly one render and zero events produce zero renders; the handler has
no timer trigger (a separate polling script refreshes on a fixed sleep
cadence instead). -/
theorem c8_burst_render (evs : List (ℚ × UpdateEvent)) :
    (runEvents initialState evs).update_count =
      evs.countP (fun p => event_accepted p.2) ∧
    (runEvents initialState evs).display_calls =
      evs.countP (fun p => event_accepted p.2) / 5 := by
  obtain ⟨h1, h2⟩ := runEvents_counters evs initialState rfl
  have h0u : initialState.update_count = 0 := rfl
  have h0d : initialState.display_calls = 0 := rfl
  rw [h0u] at h1
  rw [h0u, h0d] at h2
  exact ⟨by simpa using h1, by simpa using h2⟩

/-- Claim C8, counterexample: the claim asserts that zero events inside a
refresh-cadence window still produce exactly one render from the timer
trigger; the event-driven handler renders only from inside event
processing, so an empty event sequence yields zero renders, and even four
accepted events (inside any window, however short) yield zero renders
while a fifth triggers one. -/
theorem c8_counterexample :
    (runEvents initialState []).display_calls = 0 ∧
    (runEvents initialState
      [(0, ⟨"SIU5", ⟨[⟨101, 1⟩], [⟨103, 1⟩], none⟩⟩),
       (1, ⟨"SIU5", ⟨[⟨101, 1⟩], [⟨103, 1⟩], none⟩⟩),
       (2, ⟨"SIU5", ⟨[⟨101, 1⟩], [⟨103, 1⟩], none⟩⟩),
       (3, ⟨"SIU5", ⟨[⟨101, 1⟩], [⟨103, 1⟩], none⟩⟩)]).display_calls = 0 ∧
    (runEvents initialState
      [(0, ⟨"SIU5", ⟨[⟨101, 1⟩], [⟨103, 1⟩], none⟩⟩),
       (1, ⟨"SIU5", ⟨[⟨101, 1⟩], [⟨103, 1⟩], none⟩⟩),
       (2, ⟨"SIU5", ⟨[⟨101, 1⟩], [⟨103, 1⟩], none⟩⟩),
       (3, ⟨"SIU5", ⟨[⟨101, 1⟩], [⟨103, 1⟩], none⟩⟩),
       (4, ⟨"SIU5", ⟨[⟨101, 1⟩], [⟨103, 1⟩], none⟩⟩)]).display_calls = 1 := by
  exact ⟨rfl, by decide, by decide⟩

/-- Claim C9: a numeric timestamp in the seconds range and its
millisecond counterpart normalize to the same instant: for every integer
s with 1e9 < s ≤ 1e12, normalizing s * 1000 as milliseconds and s as
seconds both yield the instant s. -/
theorem c9_seconds_ms_agree (s : ℤ) (h1 : (10 : ℤ) ^ 9 < s)
    (h2 : s ≤ (10 : ℤ) ^ 12) :
    normalize_timestamp (RawTs.num ((s : ℚ) * 1000)) = some (s : ℚ) ∧
    normalize_timestamp (RawTs.num (s : ℚ)) = some (s : ℚ) := by
  have hq1 : (10 : ℚ) ^ 9 < (s : ℚ) := by exact_mod_cast h1
  have hq2 : ((s : ℚ)) ≤ (10 : ℚ) ^ 12 := by exact_mod_cast h2
  constructor
  · have hpow : (10 : ℚ) ^ 12 = 10 ^ 9 * 1000 := by norm_num
    have hgt : (s : ℚ) * 1000 > 10 ^ 12 := by
      rw [hpow]
      have := mul_lt_mul_of_pos_right hq1 (show (0 : ℚ) < 1000 by norm_num)
      linarith
    simp only [normalize_timestamp]
    rw [if_pos hgt]
    norm_num

  · have hn : ¬ ((s : ℚ) > 10 ^ 12) := by linarith
    simp only [normalize_timestamp]
    rw [if_neg hn, if_pos hq1]

/-- Claim C9, witness: the agreement at the spec's example instant
1690000000. -/
theorem c9_witness :
    normalize_timestamp (RawTs.num (((1690000000 : ℤ) : ℚ) * 1000)) =
      some ((1690000000 : ℤ) : ℚ) ∧
    normalize_timestamp (RawTs.num ((1690000000 : ℤ) : ℚ)) =
      some ((1690000000 : ℤ) : ℚ) := by
  exact c9_seconds_ms_agree 1690000000 (by norm_num) (by norm_num)

/-- Claim C10: querying latency statistics over an empty window is total:
the average-latency accessor returns 0 when no samples exist (the
division is guarded by the emptiness check) and the statistics display
returns without showing anything; on a non-empty window the accessor
divides the sum by the count and the display produces statistics. -/
theorem c10_empty_latency_stats (m : List ℚ) :
    get_avg_latency [] = 0 ∧
    show_latency_stats [] = none ∧
    (m ≠ [] → get_avg_latency m = m.sum / m.length) ∧
    (m ≠ [] → ∃ stats, show_latency_stats m = some stats) := by
  refine ⟨rfl, rfl, ?_, ?_⟩
  · intro h
    obtain ⟨x, tl, rfl⟩ : ∃ x tl, m = x :: tl := by
      cases m with
      | nil => exact absurd rfl h
      | cons x tl => exact ⟨x, tl, rfl⟩
    simp [get_avg_latency]
  · intro h
    have hne : m.isEmpty = false := by
      cases m with
      | nil => exact absurd rfl h
      | cons x tl => rfl
    have hlen : (m.drop (m.length - 20)).length = m.length - (m.length - 20) :=
      List.length_drop _ _
    have hpos : 0 < m.length := List.length_pos.mpr h
    have hd : m.drop (m.length - 20) ≠ [] := by
      intro hnil
      rw [hnil] at hlen
      simp at hlen
      omega
    rcases hdrop : m.drop (m.length - 20) with _ | ⟨x, tl⟩
    · exact absurd hdrop hd
    · refine ⟨((x :: tl).sum / ((x :: tl).length : ℚ), tl.foldl min x,
        tl.foldl max x), ?_⟩
      unfold show_latency_stats
      rw [hne, hdrop]
      rfl

/-- Claim C10, witness: the statistics functions applied to the empty
window and to the singleton window [100]. -/
theorem c10_witness :
    get_avg_latency [] = 0 ∧
    show_latency_stats [] = none ∧
    get_avg_latency [100] = ([(100 : ℚ)].sum / ([(100 : ℚ)].length : ℚ)) ∧
    (∃ stats, show_latency_stats [100] = some stats) := by
  obtain ⟨h1, h2, h3, h4⟩ := c10_empty_latency_stats [100]
  exact ⟨h1, h2, h3 (by simp), h4 (by simp)⟩

end Claims

end TradesAnalyzer
